import Mathlib

/-!
Verification development for the stock-screener repository.

The definitions below are a shallow embedding of the Python sources:
numeric values (Python float/int) are modelled as rationals, so all
arithmetic is exact; fallible paths return Option; SQLite tables are
modelled as lists of rows.  Each definition cites the source file and
function it embeds.
-/

set_option maxRecDepth 20000

/-! ## Generic list helpers used by the embedding (Python slicing idioms) -/

/-- Python slice l[-n:] — the trailing n elements. -/
def lastN (n : Nat) (l : List ℚ) : List ℚ := l.drop (l.length - n)

/-- Python index l[-k] with default 0 for out of range (callers guard lengths). -/
def atEnd (l : List ℚ) (k : Nat) : ℚ := l.getD (l.length - k) 0

/-- Python max(l) — 0 on [] (Python raises there; every call site guards nonemptiness). -/
def listMax (l : List ℚ) : ℚ :=
  match l with
  | [] => 0
  | x :: xs => xs.foldl max x

/-- Python min(l) — 0 on [] (Python raises there; every call site guards nonemptiness). -/
def listMin (l : List ℚ) : ℚ :=
  match l with
  | [] => 0
  | x :: xs => xs.foldl min x

/-- Python last element l[-1] with 0 for the empty list. -/
def lastVal (l : List ℚ) : ℚ := (l.getLast?).getD 0

/-- Number of strict rises between consecutive elements
(screener_v3.py line 244: sum of recent[i] > recent[i-1]). -/
def upDays (l : List ℚ) : Nat :=
  ((l.zip l.tail).filter (fun p => decide (p.1 < p.2))).length

/-- Character-list version of Python str.startswith used by subMatch. -/
def leadMatch : List Char → List Char → Bool
  | [], _ => true
  | _ :: _, [] => false
  | a :: as, b :: bs => a == b && leadMatch as bs

/-- Containment of a character list inside another (Python substring test). -/
def subMatch (n : List Char) : List Char → Bool
  | [] => leadMatch n []
  | b :: t => leadMatch n (b :: t) || subMatch n t

/-- Python substring containment (needle in hay) on strings. -/
def strIn (needle hay : String) : Bool := subMatch needle.data hay.data

/-! ## Indicator engine — screener_v3.py class TechnicalIndicators (lines 85-164) -/

/-- TechnicalIndicators.calculate_sma (lines 88-96): trailing arithmetic means,
empty when the series is shorter than the period. -/
def calculate_sma (prices : List ℚ) (period : Nat) : List ℚ :=
  if prices.length < period then []
  else (List.range (prices.length - period + 1)).map
    (fun i => ((prices.drop i).take period).sum / period)

/-- EMA recurrence (lines 104-105): each output is the previous output plus
(price - previous) * multiplier; emits the seed first. -/
def emaRun (m : ℚ) (prev : ℚ) : List ℚ → List ℚ
  | [] => [prev]
  | p :: ps => prev :: emaRun m ((p - prev) * m + prev) ps

/-- TechnicalIndicators.calculate_ema (lines 98-106): seed is the SMA of the
first period points; empty when the series is shorter than the period. -/
def calculate_ema (prices : List ℚ) (period : Nat) : List ℚ :=
  if prices.length < period then []
  else emaRun (2 / (period + 1)) ((prices.take period).sum / period) (prices.drop period)

/-- TechnicalIndicators.calculate_macd (lines 108-124): EMA12 - EMA26 aligned to
the shorter series, 9-period signal line, histogram; all empty below 26 bars. -/
def calculate_macd (prices : List ℚ) : List ℚ × List ℚ × List ℚ :=
  if prices.length < 26 then ([], [], [])
  else
    let e12 := calculate_ema prices 12
    let e26 := calculate_ema prices 26
    let e12b := e12.drop (e12.length - e26.length)
    let macdL0 := (e12b.zip e26).map (fun p => p.1 - p.2)
    if 9 ≤ macdL0.length then
      let sigL := calculate_ema macdL0 9
      let macdL := lastN sigL.length macdL0
      let hist := (macdL.zip sigL).map (fun p => p.1 - p.2)
      (macdL, sigL, hist)
    else (macdL0, [], [])

/-- Sum of positive deltas over the RSI window ending at index i
(calculate_rsi inner loop, lines 132-142). -/
def sumGains (prices : List ℚ) (period i : Nat) : ℚ :=
  ((List.range period).map (fun k =>
    let j := i - period + 1 + k
    let ch := prices.getD j 0 - prices.getD (j - 1) 0
    if 0 < ch then ch else 0)).sum

/-- Sum of absolute negative deltas over the RSI window ending at index i. -/
def sumLosses (prices : List ℚ) (period i : Nat) : ℚ :=
  ((List.range period).map (fun k =>
    let j := i - period + 1 + k
    let ch := prices.getD j 0 - prices.getD (j - 1) 0
    if 0 < ch then 0 else |ch|)).sum

/-- avg_gain of the window ending at i (line 142). -/
def avgGainAt (prices : List ℚ) (period i : Nat) : ℚ := sumGains prices period i / period

/-- avg_loss of the window ending at i (line 143). -/
def avgLossAt (prices : List ℚ) (period i : Nat) : ℚ := sumLosses prices period i / period

/-- One RSI value (lines 144-148): 100 when the average loss is zero, otherwise
100 - 100/(1+rs) with rs = avg_gain/avg_loss. -/
def rsiAt (prices : List ℚ) (period i : Nat) : ℚ :=
  if avgLossAt prices period i = 0 then 100
  else 100 - 100 / (1 + avgGainAt prices period i / avgLossAt prices period i)

/-- TechnicalIndicators.calculate_rsi (lines 126-150): one value per index from
period to the end; empty when fewer than period+1 bars. -/
def calculate_rsi (prices : List ℚ) (period : Nat) : List ℚ :=
  if prices.length < period + 1 then []
  else (List.range (prices.length - period)).map (fun k => rsiAt prices period (period + k))

/-- OBV fold (lines 156-163): add the volume on a rise, subtract on a fall,
hold on no change. -/
def obvSteps (prev : ℚ) : List ((ℚ × ℚ) × ℚ) → List ℚ
  | [] => []
  | ((p0, p1), v) :: rest =>
    let nxt := if p0 < p1 then prev + v else if p1 < p0 then prev - v else prev
    nxt :: obvSteps nxt rest

/-- TechnicalIndicators.calculate_obv (lines 152-164): first value 0; empty when
lengths mismatch or fewer than 2 bars. -/
def calculate_obv (prices volumes : List ℚ) : List ℚ :=
  if prices.length ≠ volumes.length ∨ prices.length < 2 then []
  else 0 :: obvSteps 0 ((prices.zip prices.tail).zip volumes.tail)

/-! ## Signal scorer — screener_v3.py class StockScreenerV3 (lines 167-437) -/

/-- The per-rule score weights of the config (screener_v3.py lines 200-209). -/
structure ScoreWeights where
  ma_golden_cross : ℤ
  macd_golden_cross : ℤ
  rsi_reversal : ℤ
  volume_surge : ℤ
  price_breakout_52w : ℤ
  price_breakout_20d : ℤ
  trend_continuation : ℤ
  obv_confirm : ℤ
deriving DecidableEq, Repr

/-- The screener configuration (StockScreenerV3._default_config, lines 180-217).
min_volume and the weak_signals block are present in the dict but unused by
analyze_stock, so they are not modelled.  The Python key volume_surge_ratio is
renamed volume_surge_thr here. -/
structure Config where
  min_price : ℚ
  max_price : ℚ
  min_avg_volume : ℚ
  min_score : ℤ
  volume_surge_thr : ℚ
  trend_confirm_days : Nat
  ma_short : Nat
  ma_long : Nat
  rsi_oversold : ℚ
  rsi_overbought : ℚ
  weights : ScoreWeights
deriving DecidableEq, Repr

/-- The default config values (lines 180-217). -/
def defaultConfig : Config :=
  { min_price := 5
    max_price := 1000
    min_avg_volume := 1000000
    min_score := 40
    volume_surge_thr := 9/5
    trend_confirm_days := 3
    ma_short := 20
    ma_long := 50
    rsi_oversold := 30
    rsi_overbought := 70
    weights :=
      { ma_golden_cross := 30
        macd_golden_cross := 25
        rsi_reversal := 20
        volume_surge := 15
        price_breakout_52w := 20
        price_breakout_20d := 10
        trend_continuation := 15
        obv_confirm := 10 } }

/-- The per-symbol input of analyze_stock after null filtering (lines 281-292):
the non-null close/volume/high series and the relevant meta fields. -/
structure StockData where
  closes : List ℚ
  volumes : List ℚ
  highs : List ℚ
  regularMarketPrice : Option ℚ
  shortName : Option String
  longName : Option String
deriving DecidableEq, Repr

/-- The StockSignal dataclass (lines 39-52); the timestamp (datetime.now() at
emission, line 431) is modelled as an integer clock value. -/
structure StockSignal where
  symbol : String
  name : String
  current_price : ℚ
  change_percent : ℚ
  volume : ℚ
  avg_volume : ℚ
  signals : List String
  score : ℤ
  trend_strength : String
  signal_quality : String
  timestamp : ℤ
deriving DecidableEq, Repr

/-- meta.get with fallback to the last close (line 291).  The 0 default is
unreachable: the caller has checked 60 ≤ closes.length. -/
def currentPrice (d : StockData) : ℚ :=
  d.regularMarketPrice.getD ((d.closes.getLast?).getD 0)

/-- Trailing average volume (line 298): mean of the last 20 entries, or of the
whole list when shorter.  An empty list gives 0 here; Python raises
ZeroDivisionError there, which the enclosing try of analyze_stock turns into
None, and in this embedding the 0 is filtered out by the min_avg_volume gate. -/
def avgVolume (vols : List ℚ) : ℚ :=
  if 20 ≤ vols.length then (lastN 20 vols).sum / 20 else vols.sum / (vols.length : ℚ)

/-- volume_ratio guard (line 368): 0 when the average volume is not positive,
so the division never runs on a zero denominator. -/
def volRel (cv av : ℚ) : ℚ := if 0 < av then cv / av else 0

/-- Python %.0f interpolation in tag strings, modelled as nearest-integer
rendering.  Only the constant part of any tag is ever inspected by the code. -/
def fmt0 (q : ℚ) : String := toString (round q)

/-- Python %.1f interpolation in tag strings, modelled with one rounded
decimal digit.  Only the constant part of any tag is ever inspected. -/
def fmt1 (q : ℚ) : String :=
  let n : ℤ := round (q * 10)
  toString (Int.fdiv n 10) ++ "." ++ toString (Int.fmod n 10).natAbs

/-- The strong-signal substrings of check_signal_quality (line 262). -/
def strongSubstrings : List String := ["金叉", "52周新高", "成交量放大"]

/-- Count of tags containing a strong substring (line 263). -/
def strongCount (sigs : List String) : Nat :=
  (sigs.filter (fun s => strongSubstrings.any (fun ss => strIn ss s))).length

/-- StockScreenerV3.check_signal_quality (lines 260-272): the A/B/C/D cascade.
Note the C threshold is the literal 40, not the configurable min_score. -/
def check_signal_quality (sigs : List String) (score : ℤ) : String :=
  if 2 ≤ strongCount sigs ∧ 70 ≤ score then "A级（强烈）"
  else if 1 ≤ strongCount sigs ∧ 50 ≤ score then "B级（较强）"
  else if 40 ≤ score then "C级（一般）"
  else "D级（弱）"

/-- StockScreenerV3.check_trend_strength (lines 235-258): classify the last
days+1 closes by up-day count and net percentage change. -/
def check_trend_strength (closes : List ℚ) (days : Nat) : String × ℤ :=
  if closes.length < days + 1 then ("数据不足", 0)
  else
    let recent := lastN (days + 1) closes
    let up := upDays recent
    let tc : ℚ :=
      if 0 < recent.headD 0 then (atEnd recent 1 - recent.headD 0) / recent.headD 0 * 100 else 0
    if days - 1 ≤ up ∧ 3 < tc then ("强势上涨", 15)
    else if days - 1 ≤ up ∧ 0 < tc then ("稳步上涨", 10)
    else if days / 2 + 1 ≤ up then ("温和上涨", 5)
    else if up ≤ 1 then ("持续下跌", -10)
    else ("震荡", 0)

/-- The scoring body of analyze_stock (lines 302-411): evaluates the seven rule
groups in order and returns (tag list, accumulated score, trend label). -/
def scoreStock (d : StockData) (c : Config) : List String × ℤ × String :=
  let closes := d.closes
  let volumes := d.volumes
  let highs := d.highs
  let cp := currentPrice d
  let av := avgVolume volumes
  -- 1. moving-average golden cross / bullish alignment (lines 306-328)
  let ms := calculate_sma closes c.ma_short
  let ml := calculate_sma closes c.ma_long
  let maPart : List String × ℤ :=
    if ms ≠ [] ∧ ml ≠ [] ∧ 3 ≤ ms.length ∧ 3 ≤ ml.length then
      let o : ℤ := (ms.length : ℤ) - (ml.length : ℤ)
      let msA := if 0 < o then ms.drop o.toNat else ms
      let mlA := if o < 0 then lastN msA.length ml else ml
      if 3 ≤ msA.length ∧ 3 ≤ mlA.length then
        if atEnd mlA 1 < atEnd msA 1 ∧ atEnd msA 2 ≤ atEnd mlA 2 then
          if atEnd closes 2 < atEnd closes 1 then
            (["🔥 MA" ++ toString c.ma_short ++ "/" ++ toString c.ma_long ++ "金叉确认"],
              c.weights.ma_golden_cross)
          else ([], 0)
        else if atEnd mlA 1 < atEnd msA 1 ∧ atEnd msA 2 < atEnd msA 1 ∧ atEnd msA 3 < atEnd msA 2 then
          (["📈 均线多头排列"], c.weights.trend_continuation)
        else ([], 0)
      else ([], 0)
    else ([], 0)
  -- 2. MACD golden cross / bullish acceleration (lines 330-345)
  let macd3 := calculate_macd closes
  let macdL := macd3.1
  let sigL := macd3.2.1
  let hist := macd3.2.2
  let macdPart : List String × ℤ :=
    if macdL ≠ [] ∧ sigL ≠ [] ∧ 3 ≤ macdL.length then
      if atEnd sigL 1 < atEnd macdL 1 ∧ atEnd macdL 2 ≤ atEnd sigL 2 ∧ atEnd macdL 2 < atEnd macdL 1 then
        (["🔥 MACD金叉确认"], c.weights.macd_golden_cross)
      else if 0 < atEnd macdL 1 ∧ hist ≠ [] ∧ 2 ≤ hist.length ∧
          atEnd hist 2 < atEnd hist 1 ∧ 0 < atEnd hist 2 then
        (["📊 MACD多头加速"], Int.fdiv c.weights.macd_golden_cross 2)
      else ([], 0)
    else ([], 0)
  -- 3. RSI reversal / cross of 50 (lines 347-363)
  let rsi := calculate_rsi closes 14
  let rsiPart : List String × ℤ :=
    if rsi ≠ [] ∧ 3 ≤ rsi.length then
      let cur := atEnd rsi 1
      if listMin ((lastN 5 rsi).dropLast) < c.rsi_oversold ∧ c.rsi_oversold < cur ∧
          atEnd rsi 2 < cur then
        (["🔥 RSI超卖反弹 (" ++ fmt0 cur ++ ")"], c.weights.rsi_reversal)
      else if atEnd rsi 2 < 50 ∧ 50 < cur ∧ atEnd rsi 2 < cur ∧ atEnd rsi 3 < atEnd rsi 2 then
        (["📈 RSI突破50并上升 (" ++ fmt0 cur ++ ")"], Int.fdiv c.weights.rsi_reversal 2)
      else ([], 0)
    else ([], 0)
  -- 4. volume surge (lines 365-373)
  let volPart : List String × ℤ :=
    if volumes ≠ [] ∧ 2 ≤ volumes.length then
      let vr := volRel (atEnd volumes 1) av
      if c.volume_surge_thr ≤ vr then
        (["🔥 成交量放大 " ++ fmt1 vr ++ "倍"], c.weights.volume_surge)
      else ([], 0)
    else ([], 0)
  -- 5. 52-week / 20-day breakout (lines 375-396)
  let brkPart : List String × ℤ :=
    if highs ≠ [] ∧ 20 ≤ highs.length then
      let h52 := if 250 ≤ highs.length then listMax (lastN 250 highs) else listMax highs
      let r52 := if 0 < h52 then cp / h52 else 0
      let p52 : List String × ℤ :=
        if (98:ℚ)/100 ≤ r52 then
          (["🔥 突破52周新高 (" ++ fmt1 (r52 * 100) ++ "%)"], c.weights.price_breakout_52w)
        else if (92:ℚ)/100 ≤ r52 then
          (["📈 接近52周新高 (" ++ fmt1 (r52 * 100) ++ "%)"], Int.fdiv c.weights.price_breakout_52w 2)
        else ([], 0)
      let h20 := listMax (lastN 20 highs)
      let p20 : List String × ℤ :=
        if h20 * ((99:ℚ)/100) ≤ cp then (["📈 突破20日高点"], c.weights.price_breakout_20d)
        else ([], 0)
      (p52.1 ++ p20.1, p52.2 + p20.2)
    else ([], 0)
  -- 6. OBV confirmation (lines 398-405)
  let obv := calculate_obv closes volumes
  let obvPart : List String × ℤ :=
    if obv ≠ [] ∧ 10 ≤ obv.length then
      let osma := (lastN 10 obv).sum / 10
      if osma * ((105:ℚ)/100) < atEnd obv 1 ∧ atEnd obv 2 < atEnd obv 1 ∧
          atEnd obv 3 < atEnd obv 2 then
        (["📊 OBV持续上升"], c.weights.obv_confirm)
      else ([], 0)
    else ([], 0)
  -- 7. trend strength (lines 407-411): the tag only when the bonus is positive,
  -- the bonus always added
  let tr := check_trend_strength closes c.trend_confirm_days
  let trendTag : List String := if 0 < tr.2 then ["📈 " ++ tr.1] else []
  (maPart.1 ++ macdPart.1 ++ rsiPart.1 ++ volPart.1 ++ brkPart.1 ++ obvPart.1 ++ trendTag,
    maPart.2 + macdPart.2 + rsiPart.2 + volPart.2 + brkPart.2 + obvPart.2 + tr.2,
    tr.1)

/-- name resolution (lines 292 and 422): shortName, then longName, then the
symbol; an empty name falls back to the symbol, otherwise it is cut to 30. -/
def nameOf (d : StockData) (sym : String) : String :=
  let n0 := d.shortName.getD (d.longName.getD sym)
  if n0 = "" then sym else n0.take 30

/-- change_percent (lines 415-416). -/
def changePct (d : StockData) : ℚ :=
  let cp := currentPrice d
  let pc := if 2 ≤ d.closes.length then atEnd d.closes 2 else cp
  if 0 < pc then (cp - pc) / pc * 100 else 0

/-- The StockSignal built on emission (lines 420-432). -/
def mkSignal (sym : String) (d : StockData) (now : ℤ)
    (r : List String × ℤ × String) : StockSignal :=
  { symbol := sym
    name := nameOf d sym
    current_price := currentPrice d
    change_percent := changePct d
    volume := lastVal d.volumes
    avg_volume := avgVolume d.volumes
    signals := r.1
    score := r.2.1
    trend_strength := r.2.2
    signal_quality := check_signal_quality r.1 r.2.1
    timestamp := now }

/-- StockScreenerV3.analyze_stock (lines 274-437): none for a failed fetch,
fewer than 60 closes, a price outside [min_price, max_price], an average
volume below min_avg_volume, or a score below the gate; otherwise the Signal.
The now argument stands for datetime.now() read at emission (line 431). -/
def analyze_stock (sym : String) (dat : Option StockData) (c : Config) (now : ℤ) :
    Option StockSignal :=
  match dat with
  | none => none
  | some d =>
    if d.closes.length < 60 then none
    else if currentPrice d < c.min_price ∨ c.max_price < currentPrice d then none
    else if avgVolume d.volumes < c.min_avg_volume then none
    else
      let r := scoreStock d c
      if r.1 ≠ [] ∧ c.min_score ≤ r.2.1 then some (mkSignal sym d now r) else none

/-! ## Screening orchestrator — screener_v3.py lines 439-497

screen_stocks dispatches every symbol to _analyze_with_tracking on a worker
pool; each completed analysis increments the processed counter under the lock
and the failed counter when the result is None (lines 439-446).  The final
statistics read the counters only after every future has completed, so they
do not depend on completion order; the pool is modelled as a left fold over
the symbol list with the per-symbol analysis as an oracle function. -/

/-- The counter fields of RunTimeStats that screen_stocks fills in at the end
of a run (lines 56-67 and 483-492); timing fields are not modelled. -/
structure RunTimeStats where
  total_stocks : Nat
  processed_stocks : Nat
  successful_stocks : Nat
  failed_stocks : Nat
  signals_found : Nat
  high_score_count : Nat
deriving DecidableEq, Repr

/-- Descending-score order used by results.sort(key=..., reverse=True)
(line 495); Python list.sort is stable. -/
def sigScoreGE (a b : StockSignal) : Prop := b.score ≤ a.score

instance : DecidableRel sigScoreGE := fun a b => inferInstanceAs (Decidable (b.score ≤ a.score))

instance : IsTotal StockSignal sigScoreGE := ⟨fun a b => le_total b.score a.score⟩

instance : IsTrans StockSignal sigScoreGE := ⟨fun _ _ _ hab hbc => le_trans hbc hab⟩

/-- The counter fold of _analyze_with_tracking (lines 439-446): one processed
increment per completed symbol, one failed increment per None result. -/
def countStep (f : String → Option StockSignal) (pc : Nat × Nat) (sym : String) : Nat × Nat :=
  (pc.1 + 1, pc.2 + if (f sym).isNone then 1 else 0)

/-- StockScreenerV3.screen_stocks (lines 448-497) with the per-symbol analysis
abstracted as f: collects the non-None results, sorts them by descending
score, and finalizes the run statistics from the two shared counters. -/
def screen_stocks (f : String → Option StockSignal) (symbols : List String) :
    List StockSignal × RunTimeStats :=
  let counts := symbols.foldl (countStep f) (0, 0)
  let results := symbols.filterMap f
  let sorted := List.insertionSort sigScoreGE results
  (sorted,
    { total_stocks := symbols.length
      processed_stocks := counts.1
      successful_stocks := counts.1 - counts.2
      failed_stocks := counts.2
      signals_found := results.length
      high_score_count := (results.filter (fun r => decide (70 ≤ r.score))).length })

/-! ## Persistence — data_store.py class DataStore -/

/-- One dict of the results list passed to save_screening_results
(lines 140-155); the serialized signals list is kept as a list. -/
structure SigRec where
  symbol : String
  name : String
  price : ℚ
  change_percent : ℚ
  volume : ℚ
  avg_volume : ℚ
  signals : List String
  score : ℤ
deriving DecidableEq, Repr

/-- One row of the screening_results table (schema lines 41-55); scan dates are
modelled as natural numbers since only equality of DATE(scan_time) is used. -/
structure SRow where
  symbol : String
  name : String
  price : ℚ
  change_percent : ℚ
  volume : ℚ
  avg_volume : ℚ
  signals : List String
  score : ℤ
  scan_date : Nat
deriving DecidableEq, Repr

/-- The INSERT of one result row (lines 141-155). -/
def toSRow (d : Nat) (r : SigRec) : SRow :=
  { symbol := r.symbol
    name := r.name
    price := r.price
    change_percent := r.change_percent
    volume := r.volume
    avg_volume := r.avg_volume
    signals := r.signals
    score := r.score
    scan_date := d }

/-- DataStore.save_screening_results (lines 130-176): appends one row per
result to the table and returns the saved count.  (The tracking rows the same
loop creates live in a different table and are modelled separately.) -/
def save_screening_results (results : List SigRec) (scan_date : Nat) (store : List SRow) :
    List SRow × Nat :=
  (store ++ results.map (toSRow scan_date), results.length)

/-- First-occurrence deduplication of the grouped symbols.  SQLite does not
specify the output order of GROUP BY; this function fixes one admissible
order (first occurrence) only so that the query stays executable.  Claims are
settled against IsQueryRead below, which ranges over every admissible
order. -/
def dedupFirst : List String → List String
  | [] => []
  | x :: xs => x :: (dedupFirst xs).filter (fun y => decide (y ≠ x))

/-- All rows of one GROUP BY symbol group, in table order. -/
def rowsFor (s : String) (rows : List SRow) : List SRow :=
  rows.filter (fun r => decide (r.symbol = s))

/-- The row SQLite reports for a group under MAX(score): a row attaining the
maximal score (the first such row in this model; SQLite leaves the choice
among equal maxima unspecified). -/
def bestRow (r : SRow) (others : List SRow) : SRow :=
  others.foldl (fun b x => if b.score < x.score then x else b) r

/-- Filler row for the impossible empty-group case of bestFor. -/
def emptySRow : SRow :=
  { symbol := "", name := "", price := 0, change_percent := 0, volume := 0
    avg_volume := 0, signals := [], score := 0, scan_date := 0 }

/-- Representative row of the group of symbol s. -/
def bestFor (s : String) (rows : List SRow) : SRow :=
  match rowsFor s rows with
  | [] => emptySRow
  | r :: rest => bestRow r rest

/-- The GROUP BY symbol step of get_results_by_date (lines 183-190): one row
per distinct symbol, carrying MAX(score).  Group order is the dedupFirst
determinization; the order-insensitive content (which rows appear) is what
the SQL semantics fixes, and IsQueryRead quantifies the order away. -/
def groupMaxBySymbol (rows : List SRow) : List SRow :=
  (dedupFirst (rows.map (fun r => r.symbol))).map (fun s => bestFor s rows)

/-- Descending-score order of the ORDER BY score DESC clause (line 189).
SQLite guarantees this order but leaves the relative order of equal-score
rows undefined. -/
def rowScoreGE (a b : SRow) : Prop := b.score ≤ a.score

instance : DecidableRel rowScoreGE := fun a b => inferInstanceAs (Decidable (b.score ≤ a.score))

instance : IsTotal SRow rowScoreGE := ⟨fun a b => le_total b.score a.score⟩

instance : IsTrans SRow rowScoreGE := ⟨fun _ _ _ hab hbc => le_trans hbc hab⟩

/-- DataStore.get_results_by_date (lines 178-207): the rows of the requested
date, grouped by symbol with MAX(score), ordered by descending score.  This
is one concrete refinement of the query (insertion sort over the dedupFirst
grouping); the real store may return any IsQueryRead list, and in particular
need not keep equal-score rows in insertion order. -/
def get_results_by_date (store : List SRow) (d : Nat) : List SRow :=
  List.insertionSort rowScoreGE
    (groupMaxBySymbol (store.filter (fun r => decide (r.scan_date = d))))

/-- The lists the query of get_results_by_date may return under SQL semantics:
exactly the grouped MAX(score) rows of the requested date, in any order
consistent with ORDER BY score DESC.  SQLite specifies neither the GROUP BY
output order nor the relative order of equal-score rows, so any permutation
of the grouped rows that is sorted by descending score is admissible.  (The
representative row of a group is determinized by bestFor; it is unique
whenever the group has a single row attaining the maximal score.) -/
def IsQueryRead (store : List SRow) (d : Nat) (read : List SRow) : Prop :=
  read.Perm (groupMaxBySymbol (store.filter (fun r => decide (r.scan_date = d)))) ∧
  read.Sorted rowScoreGE

/-- One row of the performance_tracking table (schema lines 58-80) restricted
to the fields update_tracking touches; is_successful is the 0/1 integer
column. -/
structure TrackingRecord where
  day1_price : Option ℚ
  day1_change : Option ℚ
  day3_price : Option ℚ
  day3_change : Option ℚ
  day5_price : Option ℚ
  day5_change : Option ℚ
  day7_price : Option ℚ
  day7_change : Option ℚ
  max_gain : Option ℚ
  max_loss : Option ℚ
  is_successful : Option ℤ
deriving DecidableEq, Repr

/-- SQL COALESCE(new, old): the new value unless it is NULL. -/
def coalesce (a b : Option ℚ) : Option ℚ :=
  match a with
  | some v => some v
  | none => b

/-- DataStore.update_tracking (lines 265-301).  The update dict is modelled
with the same optional fields (data.get(k) is None for a missing key).  Every
price/change/gain/loss column is written through COALESCE(?, old); the
is_successful column is written directly from the incoming value (line 282). -/
def update_tracking (r : TrackingRecord) (d : TrackingRecord) : TrackingRecord :=
  { day1_price := coalesce d.day1_price r.day1_price
    day1_change := coalesce d.day1_change r.day1_change
    day3_price := coalesce d.day3_price r.day3_price
    day3_change := coalesce d.day3_change r.day3_change
    day5_price := coalesce d.day5_price r.day5_price
    day5_change := coalesce d.day5_change r.day5_change
    day7_price := coalesce d.day7_price r.day7_price
    day7_change := coalesce d.day7_change r.day7_change
    max_gain := coalesce d.max_gain r.max_gain
    max_loss := coalesce d.max_loss r.max_loss
    is_successful := d.is_successful }

/-! ## Weight optimizer — weekly_analysis.py WeeklyAnalyzer.auto_optimize_model
(lines 354-427) -/

/-- The type tag of an optimization suggestion
(_generate_optimization_suggestions, lines 245-290). -/
inductive SuggestionType where
  | reduce_weight
  | increase_weight
  | adjust_threshold
  | review
deriving DecidableEq, Repr

/-- One optimization suggestion; only the type and target drive
auto_optimize_model. -/
structure Suggestion where
  stype : SuggestionType
  target : String
deriving DecidableEq, Repr

/-- The fixed signal-type to weight-key lookup table (lines 368-378). -/
def signal_to_weight (t : String) : Option String :=
  if t = "MA金叉" then some "ma_golden_cross"
  else if t = "MACD金叉" then some "macd_golden_cross"
  else if t = "MACD多头" then some "macd_golden_cross"
  else if t = "RSI反弹" then some "rsi_bullish"
  else if t = "RSI健康" then some "rsi_bullish"
  else if t = "成交量放大" then some "volume_surge"
  else if t = "接近新高" then some "price_breakout"
  else if t = "价格突破" then some "price_breakout"
  else if t = "OBV确认" then some "obv_confirm"
  else none

/-- The weight map (config weights dict): a finite map from weight key to
integer weight. -/
def Weights : Type := String → Option ℤ

/-- One iteration of the suggestion loop (lines 382-413): reduce_weight steps
the mapped weight down by 5 clamped at 5, increase_weight steps it up by 5
clamped at 35, both only when the mapped key is present; adjust_threshold and
review leave the weights untouched. -/
def applySuggestion (w : Weights) (s : Suggestion) : Weights :=
  match s.stype with
  | SuggestionType.reduce_weight =>
    match signal_to_weight s.target with
    | some k =>
      match w k with
      | some old => fun q => if q = k then some (max 5 (old - 5)) else w q
      | none => w
    | none => w
  | SuggestionType.increase_weight =>
    match signal_to_weight s.target with
    | some k =>
      match w k with
      | some old => fun q => if q = k then some (min 35 (old + 5)) else w q
      | none => w
    | none => w
  | _ => w

/-- WeeklyAnalyzer.auto_optimize_model restricted to its effect on the weight
map: the suggestion loop folded over the starting weights.  (When no
suggestion applies, the loop is the identity and the config is left as is,
which coincides with the applied-list guard of line 415.) -/
def auto_optimize (w : Weights) (sugs : List Suggestion) : Weights :=
  sugs.foldl applySuggestion w

/-! ## Concrete inputs used by witnesses and counterexamples -/

/-- Projection of a StockSignal to everything except the timestamp field. -/
def timeless (s : StockSignal) :
    String × String × ℚ × ℚ × ℚ × ℚ × List String × ℤ × String × String :=
  (s.symbol, s.name, s.current_price, s.change_percent, s.volume, s.avg_volume,
    s.signals, s.score, s.trend_strength, s.signal_quality)

/-- A 60-bar series with a flat body and three rising closes at the end: it
passes every gate and emits (20-day high, near-52-week-high, trend bonus and
more fire under c1). -/
def d1 : StockData :=
  { closes := List.replicate 57 (100:ℚ) ++ [101, 103, 104]
    volumes := List.replicate 60 (2:ℚ)
    highs := List.replicate 60 (104:ℚ)
    regularMarketPrice := some 104
    shortName := some "Test One"
    longName := none }

/-- The default config with a volume floor that d1 satisfies. -/
def c1 : Config :=
  { defaultConfig with min_avg_volume := 1 }

/-- A 60-bar series whose only firing rules are the 20-day-high breakout and a
mild trend bonus: under cD it scores 35 with no grade-C headroom. -/
def dD : StockData :=
  { closes := List.replicate 57 (100:ℚ) ++ [101, 100, 101]
    volumes := List.replicate 60 (2:ℚ)
    highs := [120] ++ List.replicate 59 (100:ℚ)
    regularMarketPrice := some 100
    shortName := some "Test D"
    longName := none }

/-- A config with min_score 20 (the gate accepts scores below the hard-coded
grade-C threshold 40) and only the 20-day-breakout weight nonzero. -/
def cD : Config :=
  { min_price := 5
    max_price := 1000
    min_avg_volume := 1
    min_score := 20
    volume_surge_thr := 9/5
    trend_confirm_days := 3
    ma_short := 20
    ma_long := 50
    rsi_oversold := 30
    rsi_overbought := 70
    weights :=
      { ma_golden_cross := 0
        macd_golden_cross := 0
        rsi_reversal := 0
        volume_surge := 0
        price_breakout_52w := 0
        price_breakout_20d := 25
        trend_continuation := 0
        obv_confirm := 0 } }

/-- d1 repriced at 2 dollars: identical, otherwise perfect, series. -/
def d2 : StockData :=
  { d1 with regularMarketPrice := some 2 }

/-- A fetch result with a single bar. -/
def dShort : StockData :=
  { closes := [10], volumes := [10], highs := [10]
    regularMarketPrice := some 10, shortName := none, longName := none }

/-- A tracking record whose day7 outcome is known and marked successful. -/
def r0 : TrackingRecord :=
  { day1_price := some 101, day1_change := some 1
    day3_price := none, day3_change := none
    day5_price := none, day5_change := none
    day7_price := some 105, day7_change := some 5
    max_gain := some 6, max_loss := some (-1)
    is_successful := some 1 }

/-- An update pass that carries no field at all (every data.get returns None). -/
def dEmpty : TrackingRecord :=
  { day1_price := none, day1_change := none
    day3_price := none, day3_change := none
    day5_price := none, day5_change := none
    day7_price := none, day7_change := none
    max_gain := none, max_loss := none
    is_successful := none }

/-- One saved result for symbol AA with score 50. -/
def recA1 : SigRec :=
  { symbol := "AA", name := "A one", price := 10, change_percent := 1
    volume := 100, avg_volume := 90, signals := ["tag1"], score := 50 }

/-- A second saved result for the same symbol AA with score 60. -/
def recA2 : SigRec :=
  { symbol := "AA", name := "A two", price := 11, change_percent := 2
    volume := 110, avg_volume := 95, signals := ["tag2"], score := 60 }

/-- A result for symbol BB with score 60. -/
def recB : SigRec :=
  { symbol := "BB", name := "B", price := 20, change_percent := 1
    volume := 200, avg_volume := 190, signals := ["tag3"], score := 60 }

/-- A weight map holding only ma_golden_cross = 25. -/
def w4 : Weights := fun k => if k = "ma_golden_cross" then some 25 else none

/-- The reduce_weight suggestion targeting the MA golden-cross signal type. -/
def sug4 : Suggestion := { stype := SuggestionType.reduce_weight, target := "MA金叉" }

/-- A weight map holding only obv_confirm = 3, below the floor of 5. -/
def w5 : Weights := fun k => if k = "obv_confirm" then some 3 else none

/-- The reduce_weight suggestion targeting the OBV confirmation signal type. -/
def sug5 : Suggestion := { stype := SuggestionType.reduce_weight, target := "OBV确认" }

/-! ## Helper lemmas -/

theorem coalesce_ne_none (a b : Option ℚ) (h : b ≠ none) : coalesce a b ≠ none := by
  cases a <;> simp [coalesce, h]

theorem coalesce_none_left (b : Option ℚ) : coalesce none b = b := rfl

theorem applySuggestion_frame (w : Weights) (s : Suggestion) (q : String)
    (h : signal_to_weight s.target ≠ some q) : applySuggestion w s q = w q := by
  obtain ⟨st, tgt⟩ := s
  simp only at h
  cases hm : signal_to_weight tgt with
  | none => cases st <;> simp [applySuggestion, hm]
  | some k =>
    have hk : q ≠ k := by
      intro he
      rw [hm, he] at h
      exact h rfl
    cases hw : w k with
    | none => cases st <;> simp [applySuggestion, hm, hw]
    | some old => cases st <;> simp [applySuggestion, hm, hw, hk]

theorem auto_optimize_frame (w : Weights) (sugs : List Suggestion) (q : String)
    (h : ∀ s ∈ sugs, signal_to_weight s.target ≠ some q) :
    auto_optimize w sugs q = w q := by
  induction sugs generalizing w with
  | nil => rfl
  | cons s rest ih =>
    have h1 : signal_to_weight s.target ≠ some q := h s (List.mem_cons_self s rest)
    have h2 : ∀ x ∈ rest, signal_to_weight x.target ≠ some q :=
      fun x hx => h x (List.mem_cons_of_mem s hx)
    calc auto_optimize w (s :: rest) q = auto_optimize (applySuggestion w s) rest q := rfl
      _ = applySuggestion w s q := ih (applySuggestion w s) h2
      _ = w q := applySuggestion_frame w s q h1

theorem countStep_fold (f : String → Option StockSignal) (l : List String) (a b : Nat) :
    l.foldl (countStep f) (a, b) =
      (a + l.length, b + (l.filter (fun s => (f s).isNone)).length) := by
  induction l generalizing a b with
  | nil => simp
  | cons x xs ih =>
    rw [List.foldl_cons, List.filter_cons]
    cases hx : (f x).isNone <;> simp [countStep, hx, ih] <;> omega

theorem filterMap_isNone_length (f : String → Option StockSignal) (l : List String) :
    (l.filterMap f).length + (l.filter (fun s => (f s).isNone)).length = l.length := by
  induction l with
  | nil => simp
  | cons x xs ih =>
    rw [List.filterMap_cons, List.filter_cons]
    cases hx : f x <;> simp [hx, Option.isNone] at ih ⊢ <;> omega

/-! ## Claim theorems -/

/-- C2 (counterexample): a later pass whose update dict carries no
is_successful key unsets an is_successful that a previous pass had set to
true, because the is_successful column is written without COALESCE. -/
theorem update_tracking_clears_is_successful :
    r0.is_successful = some 1 ∧ (update_tracking r0 dEmpty).is_successful = none :=
  ⟨rfl, rfl⟩

/-- C2 (amended): the ten price/change/gain/loss columns of a TrackingRecord
fill in monotonically under update_tracking — a pass carrying None for a
column leaves it unchanged, and a column that is set is never made NULL — but
the is_successful column is overwritten verbatim with the incoming value on
every pass, so a pass that does not carry it clears it. -/
theorem update_tracking_monotone_fills (r d : TrackingRecord) :
    (r.day7_change ≠ none → (update_tracking r d).day7_change ≠ none) ∧
    (d.day7_change = none → (update_tracking r d).day7_change = r.day7_change) ∧
    ((update_tracking r d).is_successful = d.is_successful) ∧
    (r.day1_price ≠ none → (update_tracking r d).day1_price ≠ none) ∧
    (d.day1_price = none → (update_tracking r d).day1_price = r.day1_price) ∧
    (r.day1_change ≠ none → (update_tracking r d).day1_change ≠ none) ∧
    (d.day1_change = none → (update_tracking r d).day1_change = r.day1_change) ∧
    (r.day3_price ≠ none → (update_tracking r d).day3_price ≠ none) ∧
    (d.day3_price = none → (update_tracking r d).day3_price = r.day3_price) ∧
    (r.day3_change ≠ none → (update_tracking r d).day3_change ≠ none) ∧
    (d.day3_change = none → (update_tracking r d).day3_change = r.day3_change) ∧
    (r.day5_price ≠ none → (update_tracking r d).day5_price ≠ none) ∧
    (d.day5_price = none → (update_tracking r d).day5_price = r.day5_price) ∧
    (r.day5_change ≠ none → (update_tracking r d).day5_change ≠ none) ∧
    (d.day5_change = none → (update_tracking r d).day5_change = r.day5_change) ∧
    (r.day7_price ≠ none → (update_tracking r d).day7_price ≠ none) ∧
    (d.day7_price = none → (update_tracking r d).day7_price = r.day7_price) ∧
    (r.max_gain ≠ none → (update_tracking r d).max_gain ≠ none) ∧
    (d.max_gain = none → (update_tracking r d).max_gain = r.max_gain) ∧
    (r.max_loss ≠ none → (update_tracking r d).max_loss ≠ none) ∧
    (d.max_loss = none → (update_tracking r d).max_loss = r.max_loss) := by
  refine ⟨fun h => coalesce_ne_none _ _ h, fun h => ?_, rfl,
    fun h => coalesce_ne_none _ _ h, fun h => ?_,
    fun h => coalesce_ne_none _ _ h, fun h => ?_,
    fun h => coalesce_ne_none _ _ h, fun h => ?_,
    fun h => coalesce_ne_none _ _ h, fun h => ?_,
    fun h => coalesce_ne_none _ _ h, fun h => ?_,
    fun h => coalesce_ne_none _ _ h, fun h => ?_,
    fun h => coalesce_ne_none _ _ h, fun h => ?_,
    fun h => coalesce_ne_none _ _ h, fun h => ?_,
    fun h => coalesce_ne_none _ _ h, fun h => ?_⟩ <;>
  · show coalesce _ _ = _
    rw [h]
    exact coalesce_none_left _

/-- C2 (witness for the amended theorem) at the concrete record r0 and the
empty update pass. -/
theorem update_tracking_monotone_fills_witness :
    r0.day7_change ≠ none ∧ (update_tracking r0 dEmpty).day7_change ≠ none ∧
    dEmpty.day7_change = none ∧ (update_tracking r0 dEmpty).day7_change = r0.day7_change := by
  refine ⟨by decide, (update_tracking_monotone_fills r0 dEmpty).1 (by decide),
    rfl, (update_tracking_monotone_fills r0 dEmpty).2.1 rfl⟩

/-- C4 (counterexample): with the frozen suggestion list containing one
reduce_weight suggestion for the MA golden cross and a starting weight of 25,
the first optimizer run moves the weight to 20 and a second run on the same
frozen input moves it again to 15 — the configuration after the second run
differs from the one after the first. -/
theorem auto_optimize_not_idempotent :
    auto_optimize w4 [sug4] "ma_golden_cross" = some 20 ∧
    auto_optimize (auto_optimize w4 [sug4]) [sug4] "ma_golden_cross" = some 15 := by
  constructor <;> decide

/-- C4 (amended): re-running the optimizer on the same frozen suggestion list
applies the same clamped step again rather than no adjustment: for a
reduce_weight suggestion mapped to weight key k with starting weight v, the
weight is max(5, v-5) after one run and max(5, v-10) after two, and the second
run leaves the configuration unchanged exactly when v ≤ 10, i.e. when the
weight is already clamped at the floor after the first run. -/
theorem auto_optimize_reapplies_step (w : Weights) (tgt k : String) (v : ℤ)
    (hmap : signal_to_weight tgt = some k) (hw : w k = some v) :
    auto_optimize w [⟨SuggestionType.reduce_weight, tgt⟩] k = some (max 5 (v - 5)) ∧
    auto_optimize (auto_optimize w [⟨SuggestionType.reduce_weight, tgt⟩])
      [⟨SuggestionType.reduce_weight, tgt⟩] k = some (max 5 (v - 10)) ∧
    (auto_optimize (auto_optimize w [⟨SuggestionType.reduce_weight, tgt⟩])
        [⟨SuggestionType.reduce_weight, tgt⟩] k =
      auto_optimize w [⟨SuggestionType.reduce_weight, tgt⟩] k ↔ v ≤ 10) := by
  have h1 : auto_optimize w [⟨SuggestionType.reduce_weight, tgt⟩] k = some (max 5 (v - 5)) := by
    simp [auto_optimize, applySuggestion, hmap, hw]
  have h2 : auto_optimize (auto_optimize w [⟨SuggestionType.reduce_weight, tgt⟩])
      [⟨SuggestionType.reduce_weight, tgt⟩] k = some (max 5 (max 5 (v - 5) - 5)) := by
    generalize hW : auto_optimize w [⟨SuggestionType.reduce_weight, tgt⟩] = w1 at h1 ⊢
    simp [auto_optimize, applySuggestion, hmap, h1]
  have hmx : max 5 (max 5 (v - 5) - 5) = max 5 (v - 10) := by
    rcases le_total (v - 5) 5 with h | h
    · rw [max_eq_left h, max_eq_left (by omega), max_eq_left (by omega)]
    · rw [max_eq_right h]
      rcases le_total (v - 10) 5 with h5 | h5
      · rw [max_eq_left (by omega), max_eq_left (by omega)]
      · rw [max_eq_right (by omega), max_eq_right (by omega)]
        omega
  refine ⟨h1, by rw [h2, hmx], ?_⟩
  rw [h1, h2, hmx]
  constructor
  · intro he
    have : max 5 (v - 10) = max 5 (v - 5) := by
      exact Option.some_injective _ he
    rcases le_total v 10 with h | h
    · exact h
    · rw [max_eq_right (by omega : (5:ℤ) ≤ v - 5)] at this
      omega
  · intro hv
    rw [max_eq_left (by omega : v - 10 ≤ 5), max_eq_left (by omega : v - 5 ≤ 5)]

/-- C4 (witness for the amended theorem) at the concrete map w4 and the MA
golden-cross reduce suggestion. -/
theorem auto_optimize_reapplies_step_witness :
    signal_to_weight "MA金叉" = some "ma_golden_cross" ∧ w4 "ma_golden_cross" = some 25 ∧
    auto_optimize (auto_optimize w4 [⟨SuggestionType.reduce_weight, "MA金叉"⟩])
      [⟨SuggestionType.reduce_weight, "MA金叉"⟩] "ma_golden_cross" = some (max 5 (25 - 10)) :=
  ⟨rfl, rfl,
    (auto_optimize_reapplies_step w4 "MA金叉" "ma_golden_cross" 25 rfl rfl).2.1⟩

/-- C5 (counterexample): a reduce_weight suggestion applied to a mapped weight
of 3 — below the floor — moves it up to 5 instead of strictly decreasing it or
leaving it where it is, because the step is computed as max(5, old-5). -/
theorem reduce_below_floor_increases :
    w5 "obv_confirm" = some 3 ∧ applySuggestion w5 sug5 "obv_confirm" = some 5 ∧ (3:ℤ) < 5 := by
  refine ⟨rfl, by decide, by decide⟩

/-- C5 (amended): for a starting weight inside [5, 35], a reduce_weight
suggestion steps the mapped weight to max(5, v-5) — strictly down when above
the floor, unchanged at the floor, by exactly 5 when no clamping occurs — an
increase_weight suggestion steps it to min(35, v+5) symmetrically, and no
suggestion ever touches a weight key that it is not mapped to. -/
theorem applySuggestion_bounded_frame (w : Weights) (tgt k : String) (v : ℤ)
    (hmap : signal_to_weight tgt = some k) (hw : w k = some v)
    (hlo : 5 ≤ v) (hhi : v ≤ 35) :
    (applySuggestion w ⟨SuggestionType.reduce_weight, tgt⟩ k = some (max 5 (v - 5)) ∧
      (5 < v → max 5 (v - 5) < v) ∧
      (v = 5 → applySuggestion w ⟨SuggestionType.reduce_weight, tgt⟩ k = some v) ∧
      (10 ≤ v → max 5 (v - 5) = v - 5)) ∧
    (applySuggestion w ⟨SuggestionType.increase_weight, tgt⟩ k = some (min 35 (v + 5)) ∧
      (v < 35 → v < min 35 (v + 5)) ∧
      (v = 35 → applySuggestion w ⟨SuggestionType.increase_weight, tgt⟩ k = some v) ∧
      (v ≤ 30 → min 35 (v + 5) = v + 5)) ∧
    (∀ q, q ≠ k →
      applySuggestion w ⟨SuggestionType.reduce_weight, tgt⟩ q = w q ∧
      applySuggestion w ⟨SuggestionType.increase_weight, tgt⟩ q = w q) ∧
    (∀ (w0 : Weights) (sugs : List Suggestion) (q : String),
      (∀ s ∈ sugs, signal_to_weight s.target ≠ some q) → auto_optimize w0 sugs q = w0 q) := by
  have hred : applySuggestion w ⟨SuggestionType.reduce_weight, tgt⟩ k = some (max 5 (v - 5)) := by
    simp [applySuggestion, hmap, hw]
  have hinc : applySuggestion w ⟨SuggestionType.increase_weight, tgt⟩ k = some (min 35 (v + 5)) := by
    simp [applySuggestion, hmap, hw]
  refine ⟨⟨hred, fun h => ?_, fun h => ?_, fun h => ?_⟩,
    ⟨hinc, fun h => ?_, fun h => ?_, fun h => ?_⟩, fun q hq => ?_, auto_optimize_frame⟩
  · exact max_lt h (by omega)
  · rw [hred, h, max_eq_left (by omega)]
  · exact max_eq_right (by omega)
  · exact lt_min h (by omega)
  · rw [hinc, h, min_eq_left (by omega)]
  · exact min_eq_right (by omega)
  · have hne : signal_to_weight tgt ≠ some q := by
      rw [hmap]
      exact fun he => hq (Option.some_injective _ he).symm
    exact ⟨applySuggestion_frame w ⟨SuggestionType.reduce_weight, tgt⟩ q hne,
      applySuggestion_frame w ⟨SuggestionType.increase_weight, tgt⟩ q hne⟩

/-- C5 (witness for the amended theorem) at w4 and the MA golden-cross
suggestion: the reduce step takes 25 to max(5, 20). -/
theorem applySuggestion_bounded_frame_witness :
    signal_to_weight "MA金叉" = some "ma_golden_cross" ∧ w4 "ma_golden_cross" = some 25 ∧
    (5:ℤ) ≤ 25 ∧ (25:ℤ) ≤ 35 ∧
    applySuggestion w4 ⟨SuggestionType.reduce_weight, "MA金叉"⟩ "ma_golden_cross" =
      some (max 5 (25 - 5)) :=
  ⟨rfl, rfl, by decide, by decide,
    (applySuggestion_bounded_frame w4 "MA金叉" "ma_golden_cross" 25 rfl rfl
      (by decide) (by decide)).1.1⟩

/-- C7 (confirmed): the filter gate runs before scoring — a current price
outside [min_price, max_price] or a trailing average volume below
min_avg_volume yields no signal for every series and config, regardless of
which scoring rules would have fired. -/
theorem filter_gate_precedence (sym : String) (d : StockData) (c : Config) (t : ℤ)
    (h : currentPrice d < c.min_price ∨ c.max_price < currentPrice d ∨
      avgVolume d.volumes < c.min_avg_volume) :
    analyze_stock sym (some d) c t = none := by
  show (if d.closes.length < 60 then none
    else if currentPrice d < c.min_price ∨ c.max_price < currentPrice d then none
    else if avgVolume d.volumes < c.min_avg_volume then none
    else
      let r := scoreStock d c
      if r.1 ≠ [] ∧ c.min_score ≤ r.2.1 then some (mkSignal sym d t r) else none) = none
  by_cases h60 : d.closes.length < 60
  · rw [if_pos h60]
  · rw [if_neg h60]
    by_cases hp : currentPrice d < c.min_price ∨ c.max_price < currentPrice d
    · rw [if_pos hp]
    · have hv : avgVolume d.volumes < c.min_avg_volume := by
        rcases h with h1 | h2 | h3
        · exact absurd (Or.inl h1) hp
        · exact absurd (Or.inr h2) hp
        · exact h3
      rw [if_neg hp, if_pos hv]

/-- C7 (witness): the 2-dollar symbol with the otherwise perfect d1 series is
excluded under the default config. -/
theorem filter_gate_precedence_witness :
    currentPrice d2 < defaultConfig.min_price ∧
    analyze_stock "AAA" (some d2) defaultConfig 0 = none :=
  ⟨by decide, filter_gate_precedence "AAA" d2 defaultConfig 0 (Or.inl (by decide))⟩

/-- C8 (confirmed): insufficient history is non-fatal — SMA and EMA are empty
below period bars, MACD is empty below 26 bars, RSI is empty below period+1
bars, and the scorer returns no signal below 60 closes; every embedded
function is total, so no exception reaches the caller. -/
theorem insufficient_history_nonfatal :
    (∀ (p : List ℚ) (n : Nat), p.length < n → calculate_sma p n = []) ∧
    (∀ (p : List ℚ) (n : Nat), p.length < n → calculate_ema p n = []) ∧
    (∀ (p : List ℚ), p.length < 26 → calculate_macd p = ([], [], [])) ∧
    (∀ (p : List ℚ) (n : Nat), p.length < n + 1 → calculate_rsi p n = []) ∧
    (∀ (sym : String) (d : StockData) (c : Config) (t : ℤ),
      d.closes.length < 60 → analyze_stock sym (some d) c t = none) := by
  refine ⟨fun p n h => ?_, fun p n h => ?_, fun p h => ?_, fun p n h => ?_,
    fun sym d c t h => ?_⟩
  · rw [calculate_sma, if_pos h]
  · rw [calculate_ema, if_pos h]
  · rw [calculate_macd, if_pos h]
  · rw [calculate_rsi, if_pos h]
  · show (if d.closes.length < 60 then none
      else if currentPrice d < c.min_price ∨ c.max_price < currentPrice d then none
      else if avgVolume d.volumes < c.min_avg_volume then none
      else
        let r := scoreStock d c
        if r.1 ≠ [] ∧ c.min_score ≤ r.2.1 then some (mkSignal sym d t r) else none) = none
    rw [if_pos h]

/-- C8 (witness): concrete short inputs for each function. -/
theorem insufficient_history_nonfatal_witness :
    calculate_sma [1] 2 = [] ∧ calculate_ema [1] 2 = [] ∧
    calculate_macd [1] = ([], [], []) ∧ calculate_rsi [1] 14 = [] ∧
    analyze_stock "AAA" (some dShort) defaultConfig 0 = none :=
  ⟨insufficient_history_nonfatal.1 [1] 2 (by decide),
    insufficient_history_nonfatal.2.1 [1] 2 (by decide),
    insufficient_history_nonfatal.2.2.1 [1] (by decide),
    insufficient_history_nonfatal.2.2.2.1 [1] 14 (by decide),
    insufficient_history_nonfatal.2.2.2.2 "AAA" dShort defaultConfig 0 (by decide)⟩

/-- C10 (confirmed): after the orchestrator completes, processed equals the
number of input symbols, successful plus failed equals processed, successful
equals signals found, and failed counts exactly the symbols whose analysis
produced no Signal. -/
theorem run_stats_invariant (f : String → Option StockSignal) (symbols : List String) :
    (screen_stocks f symbols).2.processed_stocks = symbols.length ∧
    (screen_stocks f symbols).2.successful_stocks + (screen_stocks f symbols).2.failed_stocks =
      (screen_stocks f symbols).2.processed_stocks ∧
    (screen_stocks f symbols).2.successful_stocks = (screen_stocks f symbols).2.signals_found ∧
    (screen_stocks f symbols).2.failed_stocks =
      (symbols.filter (fun s => (f s).isNone)).length := by
  have hc := countStep_fold f symbols 0 0
  have hl := filterMap_isNone_length f symbols
  have hle : (symbols.filter (fun s => (f s).isNone)).length ≤ symbols.length :=
    List.length_filter_le _ _
  refine ⟨?_, ?_, ?_, ?_⟩ <;>
    simp only [screen_stocks, hc, Nat.zero_add] <;> omega

/-- C1 (counterexample): two invocations of the analysis on the identical
series, metadata and config both emit, but the two Signals differ — in the
timestamp field, which analyze_stock stamps from the wall clock at emission. -/
theorem analyze_stock_timestamp_differs :
    (analyze_stock "X" (some d1) c1 0).isSome = true ∧
    analyze_stock "X" (some d1) c1 0 ≠ analyze_stock "X" (some d1) c1 1 :=
  ⟨by decide!, by decide!⟩

/-- C1 (amended): the per-symbol analysis is deterministic in every field
except the timestamp: for identical input data and config, two invocations at
any two clock readings agree on the whole Signal with the timestamp projected
away, including the no-signal case. -/
theorem analyze_stock_deterministic_except_timestamp (sym : String) (dat : Option StockData)
    (c : Config) (t1 t2 : ℤ) :
    (analyze_stock sym dat c t1).map timeless = (analyze_stock sym dat c t2).map timeless := by
  cases dat with
  | none => rfl
  | some d =>
    show ((if d.closes.length < 60 then none
      else if currentPrice d < c.min_price ∨ c.max_price < currentPrice d then none
      else if avgVolume d.volumes < c.min_avg_volume then none
      else
        let r := scoreStock d c
        if r.1 ≠ [] ∧ c.min_score ≤ r.2.1 then some (mkSignal sym d t1 r)
        else none).map timeless) =
      ((if d.closes.length < 60 then none
      else if currentPrice d < c.min_price ∨ c.max_price < currentPrice d then none
      else if avgVolume d.volumes < c.min_avg_volume then none
      else
        let r := scoreStock d c
        if r.1 ≠ [] ∧ c.min_score ≤ r.2.1 then some (mkSignal sym d t2 r)
        else none).map timeless)
    split_ifs <;> try rfl
    show Option.map timeless
        (if (scoreStock d c).1 ≠ [] ∧ c.min_score ≤ (scoreStock d c).2.1
          then some (mkSignal sym d t1 (scoreStock d c)) else none) =
      Option.map timeless
        (if (scoreStock d c).1 ≠ [] ∧ c.min_score ≤ (scoreStock d c).2.1
          then some (mkSignal sym d t2 (scoreStock d c)) else none)
    split_ifs <;> rfl

/-- C9 (confirmed): every RSI value lies in [0, 100], an RSI value is 100
exactly when the average loss of its window is zero, and the volume ratio is
the sentinel 0 whenever the average volume is zero — neither computation
divides by zero. -/
theorem rsi_bounds_and_sentinels :
    (∀ (p : List ℚ) (n i : Nat), 0 ≤ rsiAt p n i ∧ rsiAt p n i ≤ 100) ∧
    (∀ (p : List ℚ) (n : Nat), ∀ r ∈ calculate_rsi p n, 0 ≤ r ∧ r ≤ 100) ∧
    (∀ (p : List ℚ) (n i : Nat), rsiAt p n i = 100 ↔ avgLossAt p n i = 0) ∧
    (∀ (cv av : ℚ), av = 0 → volRel cv av = 0) := by
  have hg : ∀ (p : List ℚ) (n i : Nat), 0 ≤ sumGains p n i := by
    intro p n i
    apply List.sum_nonneg
    intro x hx
    simp only [List.mem_map, List.mem_range] at hx
    obtain ⟨k, _, rfl⟩ := hx
    split
    · exact le_of_lt (by assumption)
    · exact le_refl 0
  have hl : ∀ (p : List ℚ) (n i : Nat), 0 ≤ sumLosses p n i := by
    intro p n i
    apply List.sum_nonneg
    intro x hx
    simp only [List.mem_map, List.mem_range] at hx
    obtain ⟨k, _, rfl⟩ := hx
    split
    · exact le_refl 0
    · exact abs_nonneg _
  have hgq : ∀ (p : List ℚ) (n i : Nat), 0 ≤ avgGainAt p n i := by
    intro p n i
    exact div_nonneg (hg p n i) (Nat.cast_nonneg n)
  have hlq : ∀ (p : List ℚ) (n i : Nat), 0 ≤ avgLossAt p n i := by
    intro p n i
    exact div_nonneg (hl p n i) (Nat.cast_nonneg n)
  have hfrac : ∀ (p : List ℚ) (n i : Nat), avgLossAt p n i ≠ 0 →
      0 < 100 / (1 + avgGainAt p n i / avgLossAt p n i) ∧
      100 / (1 + avgGainAt p n i / avgLossAt p n i) ≤ 100 := by
    intro p n i hne
    have hpos : 0 < avgLossAt p n i := lt_of_le_of_ne (hlq p n i) (Ne.symm hne)
    have hrs : 0 ≤ avgGainAt p n i / avgLossAt p n i := div_nonneg (hgq p n i) (le_of_lt hpos)
    constructor
    · exact div_pos (by norm_num) (by linarith)
    · exact div_le_self (by norm_num) (by linarith)
  have hbound : ∀ (p : List ℚ) (n i : Nat), 0 ≤ rsiAt p n i ∧ rsiAt p n i ≤ 100 := by
    intro p n i
    rw [rsiAt]
    split
    · exact ⟨by norm_num, le_refl 100⟩
    · next hne =>
      obtain ⟨hp, hle⟩ := hfrac p n i hne
      exact ⟨by linarith, by linarith⟩
  refine ⟨hbound, ?_, ?_, ?_⟩
  · intro p n r hr
    rw [calculate_rsi] at hr
    split at hr
    · exact absurd hr (List.not_mem_nil r)
    · simp only [List.mem_map, List.mem_range] at hr
      obtain ⟨k, _, rfl⟩ := hr
      exact hbound p n (n + k)
  · intro p n i
    rw [rsiAt]
    split
    · next hz => exact ⟨fun _ => hz, fun _ => rfl⟩
    · next hne =>
      obtain ⟨hp, _⟩ := hfrac p n i hne
      constructor
      · intro he
        exact absurd (by linarith : (100:ℚ) / (1 + avgGainAt p n i / avgLossAt p n i) = 0)
          (ne_of_gt hp)
      · intro hz
        exact absurd hz hne
  · intro cv av hz
    rw [volRel, if_neg]
    rw [hz]
    exact lt_irrefl 0

/-- C9 (witness): a concrete RSI window with a nonzero loss stays in [0, 100],
and the ratio sentinel at zero average volume. -/
theorem rsi_bounds_and_sentinels_witness :
    (0 ≤ rsiAt [1, 2, 1] 1 1 ∧ rsiAt [1, 2, 1] 1 1 ≤ 100) ∧
    (rsiAt [1, 1] 14 14 = 100 ↔ avgLossAt [1, 1] 14 14 = 0) ∧
    volRel 5 0 = 0 :=
  ⟨rsi_bounds_and_sentinels.1 [1, 2, 1] 1 1,
    rsi_bounds_and_sentinels.2.2.1 [1, 1] 14 14,
    rsi_bounds_and_sentinels.2.2.2 5 0 rfl⟩

/-- C6 (counterexample): under a config whose min_score is 20, a series whose
score lands at 35 with a fired rule is emitted and its grade is D — grade D is
visible to callers because the grade-C branch tests the hard-coded 40, not
min_score. -/
theorem grade_D_emitted_low_min_score :
    cD.min_score = 20 ∧
    (analyze_stock "X" (some dD) cD 0).map (fun s => s.signal_quality) = some "D级（弱）" :=
  ⟨rfl, by decide!⟩

/-- C6 (amended): once the filter gates pass, a Signal is emitted iff at least
one rule fired and the score reaches min_score; an emitted Signal carries the
scored tags, score, and the check_signal_quality grade; grade D cannot appear
on an emitted Signal when min_score ≥ 40 (it can when min_score < 40, see the
counterexample); and the grade cascade is: A iff ≥2 strong tags and score ≥70,
B iff ≥1 strong tag and score ≥50 and not A, C iff score ≥ the hard-coded 40
and neither A nor B. -/
theorem emission_gate_and_grades (sym : String) (d : StockData) (c : Config) (t : ℤ)
    (hlen : ¬ d.closes.length < 60)
    (hpr : ¬ (currentPrice d < c.min_price ∨ c.max_price < currentPrice d))
    (hvol : ¬ avgVolume d.volumes < c.min_avg_volume) :
    ((analyze_stock sym (some d) c t).isSome ↔
      (scoreStock d c).1 ≠ [] ∧ c.min_score ≤ (scoreStock d c).2.1) ∧
    (∀ s, analyze_stock sym (some d) c t = some s →
      s.signal_quality = check_signal_quality (scoreStock d c).1 (scoreStock d c).2.1 ∧
      s.signals = (scoreStock d c).1 ∧ s.score = (scoreStock d c).2.1) ∧
    (40 ≤ c.min_score → ∀ s, analyze_stock sym (some d) c t = some s →
      s.signal_quality ≠ "D级（弱）") ∧
    (∀ (sigs : List String) (sc : ℤ),
      (check_signal_quality sigs sc = "A级（强烈）" ↔ 2 ≤ strongCount sigs ∧ 70 ≤ sc) ∧
      (check_signal_quality sigs sc = "B级（较强）" ↔
        (1 ≤ strongCount sigs ∧ 50 ≤ sc) ∧ ¬(2 ≤ strongCount sigs ∧ 70 ≤ sc)) ∧
      (check_signal_quality sigs sc = "C级（一般）" ↔
        40 ≤ sc ∧ ¬(1 ≤ strongCount sigs ∧ 50 ≤ sc) ∧ ¬(2 ≤ strongCount sigs ∧ 70 ≤ sc))) := by
  have hform : analyze_stock sym (some d) c t =
      (if (scoreStock d c).1 ≠ [] ∧ c.min_score ≤ (scoreStock d c).2.1
        then some (mkSignal sym d t (scoreStock d c)) else none) := by
    show (if d.closes.length < 60 then none
      else if currentPrice d < c.min_price ∨ c.max_price < currentPrice d then none
      else if avgVolume d.volumes < c.min_avg_volume then none
      else
        let r := scoreStock d c
        if r.1 ≠ [] ∧ c.min_score ≤ r.2.1 then some (mkSignal sym d t r) else none) = _
    rw [if_neg hlen, if_neg hpr, if_neg hvol]
  have hquality : ∀ s, analyze_stock sym (some d) c t = some s →
      s.signal_quality = check_signal_quality (scoreStock d c).1 (scoreStock d c).2.1 ∧
      s.signals = (scoreStock d c).1 ∧ s.score = (scoreStock d c).2.1 := by
    intro s hs
    rw [hform] at hs
    split_ifs at hs with h
    cases hs
    exact ⟨rfl, rfl, rfl⟩
  have hscore : ∀ s, analyze_stock sym (some d) c t = some s →
      c.min_score ≤ (scoreStock d c).2.1 := by
    intro s hs
    rw [hform] at hs
    split_ifs at hs with h
    exact h.2
  refine ⟨?_, hquality, ?_, ?_⟩
  · rw [hform]
    split_ifs with h
    · simp [h]
    · simp [h]
  · intro h40 s hs
    rw [(hquality s hs).1, check_signal_quality]
    have hsc : 40 ≤ (scoreStock d c).2.1 := le_trans h40 (hscore s hs)
    split_ifs with hA hB
    · decide
    · decide
    · decide
  · intro sigs sc
    rw [check_signal_quality]
    split_ifs with hA hB hC
    · exact ⟨⟨fun _ => hA, fun _ => rfl⟩,
        ⟨fun he => absurd he (by decide), fun hb => absurd hA hb.2⟩,
        ⟨fun he => absurd he (by decide), fun hc => absurd hA hc.2.2⟩⟩
    · exact ⟨⟨fun he => absurd he (by decide), fun ha => absurd ha hA⟩,
        ⟨fun _ => ⟨hB, hA⟩, fun _ => rfl⟩,
        ⟨fun he => absurd he (by decide), fun hc => absurd hB hc.2.1⟩⟩
    · exact ⟨⟨fun he => absurd he (by decide), fun ha => absurd ha hA⟩,
        ⟨fun he => absurd he (by decide), fun hb => absurd hb.1 hB⟩,
        ⟨fun _ => ⟨hC, hB, hA⟩, fun _ => rfl⟩⟩
    · exact ⟨⟨fun he => absurd he (by decide), fun ha => absurd ha hA⟩,
        ⟨fun he => absurd he (by decide), fun hb => absurd hb.1 hB⟩,
        ⟨fun he => absurd he (by decide), fun hc => absurd hc.1 hC⟩⟩

/-- C6 (witness for the amended theorem) at the emitting series d1 under c1. -/
theorem emission_gate_and_grades_witness :
    ¬ d1.closes.length < 60 ∧
    ((analyze_stock "X" (some d1) c1 7).isSome ↔
      (scoreStock d1 c1).1 ≠ [] ∧ c1.min_score ≤ (scoreStock d1 c1).2.1) :=
  ⟨by decide, (emission_gate_and_grades "X" d1 c1 7 (by decide)
    (by decide!) (by decide!)).1⟩

theorem dedupFirst_of_nodup (l : List String) (h : l.Nodup) : dedupFirst l = l := by
  induction l with
  | nil => rfl
  | cons x xs ih =>
    rw [dedupFirst, ih (List.Nodup.of_cons h)]
    have hx : x ∉ xs := (List.nodup_cons.mp h).1
    rw [List.filter_eq_self.mpr]
    intro a ha
    simp only [decide_eq_true_eq]
    intro he
    exact hx (he ▸ ha)

theorem rowsFor_of_nodup (rows : List SRow) (h : (rows.map SRow.symbol).Nodup)
    (r : SRow) (hr : r ∈ rows) : rowsFor r.symbol rows = [r] := by
  induction rows with
  | nil => exact absurd hr (List.not_mem_nil r)
  | cons x xs ih =>
    rw [List.map_cons, List.nodup_cons] at h
    rcases List.mem_cons.mp hr with he | hm
    · subst he
      rw [rowsFor, List.filter_cons, if_pos (by simp)]
      congr 1
      rw [List.filter_eq_nil_iff]
      intro a ha
      simp only [decide_eq_true_eq]
      intro hs
      exact h.1 (hs ▸ List.mem_map_of_mem SRow.symbol ha)
    · have hx : ¬ x.symbol = r.symbol := by
        intro he
        exact h.1 (he ▸ List.mem_map_of_mem SRow.symbol hm)
      rw [rowsFor, List.filter_cons, if_neg (by simpa using hx)]
      exact ih h.2 hm

theorem groupMax_of_nodup (rows : List SRow) (h : (rows.map SRow.symbol).Nodup) :
    groupMaxBySymbol rows = rows := by
  rw [groupMaxBySymbol, dedupFirst_of_nodup _ h, List.map_map]
  have : ∀ r ∈ rows, (fun s => bestFor s rows) (SRow.symbol r) = r := by
    intro r hr
    show bestFor r.symbol rows = r
    rw [bestFor, rowsFor_of_nodup rows h r hr]
    rfl
  calc rows.map ((fun s => bestFor s rows) ∘ SRow.symbol)
      = rows.map id := List.map_congr_left this
    _ = rows := List.map_id rows

/-- C3 (counterexample): a batch of N = 2 Signals that share a symbol saves
two rows, but re-reading that date returns a single record — the read query
groups by symbol — so the round-trip does not return exactly N records for
every batch. -/
theorem roundtrip_duplicate_symbol_collapses :
    (save_screening_results [recA1, recA2] 0 []).2 = 2 ∧
    (get_results_by_date (save_screening_results [recA1, recA2] 0 []).1 0).length = 1 :=
  ⟨rfl, by decide⟩

/-- The executable refinement get_results_by_date is one admissible read of
its query: it returns the grouped rows in a descending-score order. -/
theorem get_results_isQueryRead (store : List SRow) (d : Nat) :
    IsQueryRead store d (get_results_by_date store d) :=
  ⟨List.perm_insertionSort rowScoreGE _, List.sorted_insertionSort rowScoreGE _⟩

/-- C3 (amended): for a batch whose symbols are pairwise distinct, saved at
one scan date into a store with no rows for that date, every list the read
query may return for that date — any admissible resolution of the unspecified
GROUP BY and equal-score ORDER BY order — consists of exactly the N saved
records with symbol, score and tag list intact, sorted by descending score.
The relative order of equal-score records is left unspecified (SQLite is free
to return ties out of insertion order), and the executable refinement is one
admissible read. -/
theorem roundtrip_distinct_symbols (results : List SigRec) (store : List SRow) (d : Nat)
    (read : List SRow)
    (hstore : ∀ r ∈ store, r.scan_date ≠ d)
    (hdist : (results.map SigRec.symbol).Nodup)
    (hread : IsQueryRead (save_screening_results results d store).1 d read) :
    read.length = results.length ∧
    read.Perm (results.map (toSRow d)) ∧
    read.Sorted rowScoreGE ∧
    IsQueryRead (save_screening_results results d store).1 d
      (get_results_by_date (save_screening_results results d store).1 d) ∧
    (save_screening_results results d store).2 = results.length := by
  have hfil : (store ++ results.map (toSRow d)).filter (fun r => decide (r.scan_date = d)) =
      results.map (toSRow d) := by
    rw [List.filter_append]
    have h1 : store.filter (fun r => decide (r.scan_date = d)) = [] := by
      rw [List.filter_eq_nil_iff]
      intro a ha
      simpa using hstore a ha
    have h2 : (results.map (toSRow d)).filter (fun r => decide (r.scan_date = d)) =
        results.map (toSRow d) := by
      rw [List.filter_eq_self]
      intro a ha
      obtain ⟨x, _, rfl⟩ := List.mem_map.mp ha
      simp [toSRow]
    rw [h1, h2, List.nil_append]
  have hsy : ((results.map (toSRow d)).map SRow.symbol).Nodup := by
    rw [List.map_map]
    exact hdist
  have hgrp : groupMaxBySymbol
      (((save_screening_results results d store).1).filter
        (fun r => decide (r.scan_date = d))) = results.map (toSRow d) := by
    show groupMaxBySymbol ((store ++ results.map (toSRow d)).filter
      (fun r => decide (r.scan_date = d))) = _
    rw [hfil, groupMax_of_nodup _ hsy]
  have hperm : read.Perm (results.map (toSRow d)) := by
    have := hread.1
    rw [hgrp] at this
    exact this
  exact ⟨by rw [hperm.length_eq, List.length_map], hperm, hread.2,
    get_results_isQueryRead _ _, rfl⟩

/-- C3 (witness for the amended theorem): a two-element batch with distinct
symbols read back through the executable admissible read has exactly the two
saved records in descending-score order. -/
theorem roundtrip_distinct_symbols_witness :
    (∀ r ∈ ([] : List SRow), r.scan_date ≠ 3) ∧
    ([recA2, recB].map SigRec.symbol).Nodup ∧
    (get_results_by_date (save_screening_results [recA2, recB] 3 []).1 3).length = 2 ∧
    (get_results_by_date (save_screening_results [recA2, recB] 3 []).1 3).Perm
      ([recA2, recB].map (toSRow 3)) :=
  ⟨fun r hr => absurd hr (List.not_mem_nil r), by decide,
    (roundtrip_distinct_symbols [recA2, recB] [] 3
      (get_results_by_date (save_screening_results [recA2, recB] 3 []).1 3)
      (fun r hr => absurd hr (List.not_mem_nil r)) (by decide)
      (get_results_isQueryRead _ _)).1,
    (roundtrip_distinct_symbols [recA2, recB] [] 3
      (get_results_by_date (save_screening_results [recA2, recB] 3 []).1 3)
      (fun r hr => absurd hr (List.not_mem_nil r)) (by decide)
      (get_results_isQueryRead _ _)).2.1⟩
